import Mathlib

/-!
Verification of the filter-and-status reconciliation engine of the
IIUCCPS-Ladder dashboard (src/script.js and the legacy duplicate in
src/unnamed/part_000), shallowly embedded in Lean 4.

The embedding follows the JavaScript source:

- a Codeforces submission carries a problem (contestId, index, tags,
  optional rating) and a verdict string; the problem identity is the
  string concatenation of contestId and index;
- the status map (a JS Map from identity strings to the strings
  SOLVED or ATTEMPTED) is modelled as a function from String to
  Option Status, where none models an absent key;
- JS truthiness tests on numbers (state.selectedRating, problem.rating
  in the analytics path) are modelled explicitly: none and 0 are falsy;
- functions that render to the DOM are modelled by the value they pass
  to the renderer; applyFiltersAndRender returns none when it exits
  early without calling renderProblemTable at all.
-/

namespace Ladder

/-- The two stored statuses of the status map. An absent key (our none)
is the unseen/unsolved state. -/
inductive Status where
  | SOLVED
  | ATTEMPTED
deriving DecidableEq, Repr

/-- Tag combination logic of the filter state. -/
inductive TagLogic where
  | OR
  | AND
deriving DecidableEq, Repr

/-- The problem object carried by a submission, as delivered by the
user.status API: contestId, index, tags and an optional rating. -/
structure SubmProblem where
  contestId : Nat
  index : String
  tags : List String
  rating : Option Nat
deriving DecidableEq, Repr

/-- One submission from the user.status API: a problem and a verdict
string, where the verdict OK denotes an accepted solution. -/
structure Submission where
  problem : SubmProblem
  verdict : String
deriving DecidableEq, Repr

/-- Problem identity of a submission: the template string
contestId followed by index, as in both sources. -/
def subPid (s : Submission) : String :=
  toString s.problem.contestId ++ s.problem.index

/-- The status map: JS Map from identity string to status string. -/
def StatusMap : Type := String → Option Status

/-- A freshly cleared status map (problemStatusMap.clear()). -/
def emptyStatusMap : StatusMap := fun _ => none

/-- problemStatusMap.set(key, value). -/
def setStatus (m : StatusMap) (k : String) (v : Status) : StatusMap :=
  fun u => if u = k then some v else m u

/-- The body of the forEach loop over reversed submissions in
fetchUserStatus (src/script.js lines 185-197): an OK verdict sets
SOLVED unconditionally; any other verdict sets ATTEMPTED unless the
current status is already SOLVED. -/
def reconcileStep (m : StatusMap) (sub : Submission) : StatusMap :=
  let problemId := subPid sub
  if sub.verdict = "OK" then
    setStatus m problemId Status.SOLVED
  else
    if m problemId ≠ some Status.SOLVED then
      setStatus m problemId Status.ATTEMPTED
    else
      m

/-- The submission-reconciliation part of fetchUserStatus
(src/script.js lines 170-197): the map is cleared, the newest-first
wire list is reversed, and the step above is folded over it. -/
def fetchUserStatusMap (subs : List Submission) : StatusMap :=
  (subs.reverse).foldl reconcileStep emptyStatusMap

/-- One entry of the problemset.problems array of the catalog fetch:
contestId, index, name, optional rating, tags. -/
structure CFProblem where
  contestId : Nat
  index : String
  name : String
  rating : Option Nat
  tags : List String
deriving DecidableEq, Repr

/-- One entry of the parallel problemStatistics array. -/
structure ProblemStat where
  solvedCount : Nat
deriving DecidableEq, Repr

/-- A merged problem record: the spread of a problem object plus the
solvedCount taken from the aligned statistics entry. -/
structure MergedProblem where
  contestId : Nat
  index : String
  name : String
  rating : Option Nat
  tags : List String
  solvedCount : Nat
deriving DecidableEq, Repr

/-- Problem identity of a merged record: the template string
contestId followed by index. -/
def mergedPid (p : MergedProblem) : String :=
  toString p.contestId ++ p.index

/-- The spread expression of fetchProblems (src/script.js lines
132-137): all fields of the problem object plus solvedCount from the
statistics entry at the same position. -/
def mergeOne (p : CFProblem) (s : ProblemStat) : MergedProblem :=
  ⟨p.contestId, p.index, p.name, p.rating, p.tags, s.solvedCount⟩

/-- problems.map with a positional stats lookup. JavaScript throws a
TypeError (caught by fetchProblems, which then reports an error) when
the statistics array is shorter than the problems array, because
stats at that index is undefined; none models that thrown error. On
aligned arrays this is the positional zip of mergeOne. -/
def combineData (problems : List CFProblem) (stats : List ProblemStat) :
    Option (List MergedProblem) :=
  if problems.length ≤ stats.length then
    some (List.zipWith mergeOne problems stats)
  else
    none

/-- JS String.prototype.trim, modelled directly on the character
list: drop whitespace from both ends. -/
def jsTrim (s : String) : String :=
  String.mk (((s.data.dropWhile Char.isWhitespace).reverse.dropWhile
    Char.isWhitespace).reverse)

/-- The pure core of fetchProblems (src/script.js lines 126-152):
merge the parallel arrays, keep records whose rating is not
undefined, then keep records whose identity is in the set of trimmed
curated ladder entries. -/
def fetchProblemsCore (problems : List CFProblem) (stats : List ProblemStat)
    (ladderProblems : List String) : Option (List MergedProblem) :=
  (combineData problems stats).map (fun combined =>
    let allProblems := combined.filter (fun p => p.rating.isSome)
    let ladderSet := ladderProblems.map (fun s => jsTrim s)
    allProblems.filter (fun p => ladderSet.contains (mergedPid p)))

/-- The filter state mutated by the UI: rating selection (null or a
number, with JS truthiness deciding whether one counts as selected),
the selected tag set in insertion order, and the tag logic. -/
structure FilterState where
  selectedRating : Option Nat
  selectedTags : List String
  tagLogic : TagLogic
deriving DecidableEq, Repr

/-- JS truthiness of the nullable number state.selectedRating:
null and 0 are falsy, every other number is truthy. -/
def ratingTruthy : Option Nat → Bool
  | none => false
  | some r => r != 0

/-- The tag-filter predicate of applyFiltersAndRender (src/script.js
lines 281-289): under OR logic, some selected tag is among the
problem tags; otherwise (AND) every selected tag is. -/
def tagKeep (st : FilterState) (p : MergedProblem) : Bool :=
  if st.tagLogic = TagLogic.OR then
    st.selectedTags.any (fun tag => p.tags.contains tag)
  else
    st.selectedTags.all (fun tag => p.tags.contains tag)

/-- applyFiltersAndRender (src/script.js lines 266-293), modelled by
the list it passes to renderProblemTable: none when the function
returns early without rendering (empty catalog), some of the empty
list when no rating is selected (falsy selectedRating), otherwise
some of the rating-filtered list, further tag-filtered when the
selected tag set is non-empty. -/
def applyFilters (allProblems : List MergedProblem) (st : FilterState) :
    Option (List MergedProblem) :=
  if allProblems.length = 0 then
    none
  else
    match st.selectedRating with
    | none => some []
    | some r =>
      if r = 0 then
        some []
      else
        let filtered := allProblems.filter (fun p => p.rating == some r)
        if st.selectedTags.length > 0 then
          some (filtered.filter (tagKeep st))
        else
          some filtered

/-- The dedup accumulator entry of generateAnalytics: the JS Map from
identity string to the first-seen problem object, modelled as an
insertion-ordered association list. -/
def dedupStep (acc : List (String × SubmProblem)) (sub : Submission) :
    List (String × SubmProblem) :=
  if sub.verdict = "OK" then
    let problemId := subPid sub
    if acc.any (fun e => e.1 == problemId) then
      acc
    else
      acc ++ [(problemId, sub.problem)]
  else
    acc

/-- The solvedProblems Map of generateAnalytics (src/unnamed/part_000
lines 371-379): keep submissions with verdict OK, one entry per
identity, first seen wins. -/
def dedupSolved (subs : List Submission) : List (String × SubmProblem) :=
  subs.foldl dedupStep []

/-- The tagCounts object update for one tag:
tagCounts[tag] = (tagCounts[tag] or 0) + 1, over a total counts
function whose default is 0. -/
def bumpTag (acc : String → Nat) (tag : String) : String → Nat :=
  fun u => if u = tag then acc tag + 1 else acc u

/-- The tag analysis of generateAnalytics (src/unnamed/part_000 lines
393-398): for each deduplicated solved problem, bump every one of its
tags. -/
def tagCounts (probs : List SubmProblem) : String → Nat :=
  probs.foldl (fun acc p => p.tags.foldl bumpTag acc) (fun _ => 0)

/-- The ratingCounts object update for one problem
(src/unnamed/part_000 lines 402-407): bump only when problem.rating
is truthy, so absent ratings and the rating 0 are skipped. -/
def bumpRating (acc : Nat → Nat) (p : SubmProblem) : Nat → Nat :=
  match p.rating with
  | none => acc
  | some r =>
    if r = 0 then acc
    else fun u => if u = r then acc r + 1 else acc u

/-- The rating analysis of generateAnalytics: fold bumpRating over
the deduplicated solved problems. -/
def ratingCounts (probs : List SubmProblem) : Nat → Nat :=
  probs.foldl bumpRating (fun _ => 0)

/-- What generateAnalytics hands on to the charts: either the no-data
message path (solvedProblems.size equals 0) or the two rendered
distributions. -/
inductive AnalyticsResult where
  | noData
  | charts (tagDist : String → Nat) (ratingDist : Nat → Nat)

/-- generateAnalytics (src/unnamed/part_000 lines 370-409): dedupe the
accepted submissions; an empty solved set shows the no-data message
and returns before any chart is computed; otherwise both
distributions are computed from the deduplicated problem objects. -/
def generateAnalytics (subs : List Submission) : AnalyticsResult :=
  let solvedProblems := dedupSolved subs
  if solvedProblems.length = 0 then
    AnalyticsResult.noData
  else
    AnalyticsResult.charts
      (tagCounts (solvedProblems.map Prod.snd))
      (ratingCounts (solvedProblems.map Prod.snd))

end Ladder

namespace Part000

open Ladder

/-- The forEach body of fetchUserStatus in the legacy file
(src/unnamed/part_000 lines 224-231), written there with an else-if:
OK sets SOLVED; otherwise ATTEMPTED is set when the current entry is
not SOLVED. -/
def reconcileStep (m : StatusMap) (sub : Submission) : StatusMap :=
  let problemId := subPid sub
  if sub.verdict = "OK" then
    setStatus m problemId Status.SOLVED
  else
    if m problemId ≠ some Status.SOLVED then
      setStatus m problemId Status.ATTEMPTED
    else
      m

/-- The reconciliation of the legacy fetchUserStatus
(src/unnamed/part_000 lines 221-231): copy the wire list, reverse to
oldest first, fold the step over it on a cleared map. -/
def fetchUserStatusMap (subs : List Submission) : StatusMap :=
  (subs.reverse).foldl Part000.reconcileStep emptyStatusMap

/-- The tag-filter predicate of the legacy applyFiltersAndRender
(src/unnamed/part_000 lines 319-325): the OR branch returns some, the
fallthrough return is the AND branch. -/
def tagKeep (st : FilterState) (p : MergedProblem) : Bool :=
  if st.tagLogic = TagLogic.OR then
    st.selectedTags.any (fun tag => p.tags.contains tag)
  else
    st.selectedTags.all (fun tag => p.tags.contains tag)

/-- The legacy applyFiltersAndRender (src/unnamed/part_000 lines
306-328), modelled by the list it passes to renderProblemTable,
exactly as the primary one: early return on an empty catalog, empty
render on a falsy rating, rating filter then optional tag filter. -/
def applyFilters (allProblems : List MergedProblem) (st : FilterState) :
    Option (List MergedProblem) :=
  if allProblems.length = 0 then
    none
  else
    match st.selectedRating with
    | none => some []
    | some r =>
      if r = 0 then
        some []
      else
        let filtered := allProblems.filter (fun p => p.rating == some r)
        if st.selectedTags.length > 0 then
          some (filtered.filter (Part000.tagKeep st))
        else
          some filtered

end Part000

namespace Ladder

/-- The example input of the spec, in newest-first wire order: problem
1A failed, then (older) 1A accepted, then (oldest) 2B failed. -/
def exC1 : List Submission :=
  [⟨⟨1, "A", ["dp"], some 800⟩, "WRONG_ANSWER"⟩,
   ⟨⟨1, "A", ["dp"], some 800⟩, "OK"⟩,
   ⟨⟨2, "B", ["math"], some 900⟩, "WRONG_ANSWER"⟩]

/-- A two-element submission list used to exhibit permutation
invariance on a concrete input. -/
def exPermA : List Submission :=
  [⟨⟨1, "A", ["dp"], some 800⟩, "OK"⟩,
   ⟨⟨2, "B", ["math"], some 900⟩, "WRONG_ANSWER"⟩]

/-- The swap of exPermA. -/
def exPermB : List Submission :=
  [⟨⟨2, "B", ["math"], some 900⟩, "WRONG_ANSWER"⟩,
   ⟨⟨1, "A", ["dp"], some 800⟩, "OK"⟩]

/-- The rated problem of the spec example for the Problem Merger. -/
def exA : CFProblem := ⟨1, "A", "Alpha", some 1200, ["dp"]⟩

/-- The unrated problem of the spec example for the Problem Merger. -/
def exB : CFProblem := ⟨1, "B", "Beta", none, ["math"]⟩

/-- Statistics aligned with the two example problems. -/
def exStats : List ProblemStat := [⟨100⟩, ⟨50⟩]

/-- A merged record tagged only dp, for the OR versus AND example. -/
def exTagged : MergedProblem := ⟨10, "A", "Tagged", some 1200, ["dp"], 5⟩

/-- A submission list with a duplicate accepted identity, used to
exhibit first-seen deduplication and the two distributions. -/
def exAna : List Submission :=
  [⟨⟨1, "A", ["dp", "math"], some 800⟩, "OK"⟩,
   ⟨⟨1, "A", ["dp"], some 900⟩, "OK"⟩,
   ⟨⟨2, "B", ["math"], some 800⟩, "OK"⟩,
   ⟨⟨3, "C", ["dp"], some 1000⟩, "WRONG_ANSWER"⟩]

/-- A single accepted submission whose problem carries the rating 0,
which JS truthiness treats like an absent rating. -/
def exR0 : List Submission := [⟨⟨1, "A", ["dp"], some 0⟩, "OK"⟩]

/-- One reconciliation step evaluated at a key: at the submission's
own identity the update rule applies, every other key is untouched. -/
lemma reconcileStep_apply (m : StatusMap) (s : Submission) (u : String) :
    (reconcileStep m s) u =
      if u = subPid s then
        (if s.verdict = "OK" then some Status.SOLVED
         else if m (subPid s) = some Status.SOLVED then some Status.SOLVED
         else some Status.ATTEMPTED)
      else m u := by
  unfold reconcileStep setStatus
  by_cases hv : s.verdict = "OK" <;>
    by_cases hm : m (subPid s) = some Status.SOLVED <;>
    by_cases hp : u = subPid s <;>
    simp [hv, hm, hp]

/-- A reconciliation fold evaluated at a key: an accepted submission
for the key forces SOLVED, otherwise any submission for the key
yields ATTEMPTED unless the key already was SOLVED, and a key no
submission touches keeps its initial value. -/
lemma foldl_reconcile_apply (subs : List Submission) (m : StatusMap) (u : String) :
    (subs.foldl reconcileStep m) u =
      if subs.any (fun s => subPid s == u && s.verdict == "OK") then some Status.SOLVED
      else if subs.any (fun s => subPid s == u) then
        (if m u = some Status.SOLVED then some Status.SOLVED else some Status.ATTEMPTED)
      else m u := by
  induction subs generalizing m with
  | nil => simp
  | cons s rest ih =>
    simp only [List.foldl_cons, List.any_cons]
    rw [ih]
    by_cases hp : subPid s = u
    · subst hp
      by_cases hv : s.verdict = "OK" <;>
        by_cases hm : m (subPid s) = some Status.SOLVED <;>
        simp [reconcileStep_apply, hv, hm]
    · have hpu : ¬(u = subPid s) := fun h => hp h.symm
      have hb : (subPid s == u) = false := by simp [hp]
      simp [reconcileStep_apply, hpu, hb, hp]

/-- The full reconciliation evaluated at a key, with the reversal
folded away: reversing the list does not change which submissions
exist for a key. -/
lemma fetchUserStatusMap_apply (subs : List Submission) (u : String) :
    fetchUserStatusMap subs u =
      if subs.any (fun s => subPid s == u && s.verdict == "OK") then some Status.SOLVED
      else if subs.any (fun s => subPid s == u) then some Status.ATTEMPTED
      else none := by
  unfold fetchUserStatusMap
  rw [foldl_reconcile_apply]
  simp [emptyStatusMap]

/-- Once a key holds SOLVED, any further reconciliation fold keeps it
SOLVED. -/
lemma foldl_reconcile_mono (subs : List Submission) (m : StatusMap) (u : String)
    (hm : m u = some Status.SOLVED) :
    (subs.foldl reconcileStep m) u = some Status.SOLVED := by
  rw [foldl_reconcile_apply, hm]
  simp

/-- List.any is invariant under permutation of the list. -/
lemma perm_any (l1 l2 : List Submission) (h : l1.Perm l2) (f : Submission → Bool) :
    l1.any f = l2.any f := by
  apply Bool.eq_iff_iff.mpr
  simp only [List.any_eq_true]
  constructor
  · rintro ⟨x, hx, hfx⟩
    exact ⟨x, h.mem_iff.mp hx, hfx⟩
  · rintro ⟨x, hx, hfx⟩
    exact ⟨x, h.mem_iff.mpr hx, hfx⟩

/-- The final status map only depends on the multiset of submissions. -/
lemma fetchUserStatusMap_perm (subs subs2 : List Submission) (h : subs.Perm subs2) :
    fetchUserStatusMap subs = fetchUserStatusMap subs2 := by
  funext u
  rw [fetchUserStatusMap_apply, fetchUserStatusMap_apply,
    perm_any subs subs2 h, perm_any subs subs2 h]

/-- Characterization of the three possible final states of a key:
SOLVED exactly when some submission for the key was accepted,
ATTEMPTED exactly when the key was submitted but never accepted,
absent exactly when the key was never submitted. -/
lemma fetchUserStatusMap_iffs (subs : List Submission) (u : String) :
    (fetchUserStatusMap subs u = some Status.SOLVED ↔
       ∃ s ∈ subs, subPid s = u ∧ s.verdict = "OK") ∧
    (fetchUserStatusMap subs u = some Status.ATTEMPTED ↔
       ((∃ s ∈ subs, subPid s = u) ∧ ¬ ∃ s ∈ subs, subPid s = u ∧ s.verdict = "OK")) ∧
    (fetchUserStatusMap subs u = none ↔ ¬ ∃ s ∈ subs, subPid s = u) := by
  rw [fetchUserStatusMap_apply]
  by_cases h1 : (subs.any fun s => subPid s == u && s.verdict == "OK") = true <;>
    by_cases h2 : (subs.any fun s => subPid s == u) = true <;>
    simp only [List.any_eq_true, Bool.and_eq_true, beq_iff_eq] at h1 h2 <;>
    simp [h1, h2]
  all_goals
    obtain ⟨s, hs, hpu, _⟩ := h1
    exact absurd ⟨s, hs, hpu⟩ h2

/-- Claim C1: the Submission Reconciler folds the wire list in reversed
(oldest-first) order over a cleared map; per submission, verdict OK sets
the identity (contestId concatenated with index) to SOLVED
unconditionally, any other verdict sets it to ATTEMPTED only if its
current status is not SOLVED, and no other key changes; on the
newest-first example P1 failed, P1 accepted, P2 failed, the result is
exactly the map P1 SOLVED, P2 ATTEMPTED. -/
theorem spec_c1 :
    (∀ subs : List Submission,
       fetchUserStatusMap subs = (subs.reverse).foldl reconcileStep emptyStatusMap) ∧
    (∀ (m : StatusMap) (sub : Submission),
       (reconcileStep m sub) (subPid sub) =
         (if sub.verdict = "OK" then some Status.SOLVED
          else if m (subPid sub) = some Status.SOLVED then some Status.SOLVED
          else some Status.ATTEMPTED)) ∧
    (∀ (m : StatusMap) (sub : Submission) (k : String), k ≠ subPid sub →
       (reconcileStep m sub) k = m k) ∧
    fetchUserStatusMap exC1 =
      (fun k => if k = "1A" then some Status.SOLVED
                else if k = "2B" then some Status.ATTEMPTED
                else none) := by
  refine ⟨fun _ => rfl, fun m sub => ?_, fun m sub k hk => ?_, ?_⟩
  · rw [reconcileStep_apply]
    simp
  · rw [reconcileStep_apply, if_neg hk]
  · funext k
    rfl

/-- Witness for C1: a step for identity 1A leaves the unrelated key 2B
untouched on the empty map. -/
theorem spec_c1_witness :
    (reconcileStep emptyStatusMap ⟨⟨1, "A", ["dp"], some 800⟩, "OK"⟩) "2B" = none := by
  have h := spec_c1.2.2.1 emptyStatusMap ⟨⟨1, "A", ["dp"], some 800⟩, "OK"⟩ "2B" (by decide)
  exact h

/-- Claim C2: within one reconciliation fold, SOLVED is monotone: from
any intermediate map in which a key is SOLVED, folding the remaining
submissions never downgrades that key, and in particular for any split
of the processed (reversed) list, a key SOLVED after the first part is
SOLVED in the final map. -/
theorem spec_c2 (subs : List Submission) (u : String) :
    (∀ m : StatusMap, m u = some Status.SOLVED →
       (subs.foldl reconcileStep m) u = some Status.SOLVED) ∧
    (∀ pre post : List Submission, subs.reverse = pre ++ post →
       (pre.foldl reconcileStep emptyStatusMap) u = some Status.SOLVED →
       fetchUserStatusMap subs u = some Status.SOLVED) := by
  constructor
  · intro m hm
    exact foldl_reconcile_mono subs m u hm
  · intro pre post hsplit hpre
    unfold fetchUserStatusMap
    rw [hsplit, List.foldl_append]
    exact foldl_reconcile_mono post _ u hpre

/-- Witness for C2: a failed submission after a SOLVED state keeps the
key SOLVED, both for an explicit intermediate map and for the split of
the concrete example fold. -/
theorem spec_c2_witness :
    (([⟨⟨1, "A", ["dp"], some 800⟩, "WRONG_ANSWER"⟩] : List Submission).foldl
        reconcileStep (setStatus emptyStatusMap "1A" Status.SOLVED)) "1A"
      = some Status.SOLVED ∧
    fetchUserStatusMap exC1 "1A" = some Status.SOLVED := by
  constructor
  · exact (spec_c2 [⟨⟨1, "A", ["dp"], some 800⟩, "WRONG_ANSWER"⟩] "1A").1 _ (by decide)
  · exact (spec_c2 exC1 "1A").2
      [⟨⟨2, "B", ["math"], some 900⟩, "WRONG_ANSWER"⟩, ⟨⟨1, "A", ["dp"], some 800⟩, "OK"⟩]
      [⟨⟨1, "A", ["dp"], some 800⟩, "WRONG_ANSWER"⟩] (by decide) (by decide)

/-- Claim C9: the final status map is invariant under permutation of the
submission list; a key is SOLVED exactly when some submission for it has
verdict OK and ATTEMPTED exactly when it is submitted but never
accepted; hence the newest-first-to-oldest-first reversal does not
change the final map. -/
theorem spec_c9 (subs subs2 : List Submission) (hperm : subs.Perm subs2) :
    fetchUserStatusMap subs = fetchUserStatusMap subs2 ∧
    (∀ u : String,
      (fetchUserStatusMap subs u = some Status.SOLVED ↔
         ∃ s ∈ subs, subPid s = u ∧ s.verdict = "OK") ∧
      (fetchUserStatusMap subs u = some Status.ATTEMPTED ↔
         ((∃ s ∈ subs, subPid s = u) ∧ ¬ ∃ s ∈ subs, subPid s = u ∧ s.verdict = "OK")) ∧
      (fetchUserStatusMap subs u = none ↔ ¬ ∃ s ∈ subs, subPid s = u)) ∧
    fetchUserStatusMap subs = fetchUserStatusMap subs.reverse :=
  ⟨fetchUserStatusMap_perm subs subs2 hperm,
   fun u => fetchUserStatusMap_iffs subs u,
   fetchUserStatusMap_perm subs subs.reverse (List.reverse_perm subs).symm⟩

/-- Witness for C9: a concrete two-element list and its swap yield the
same map, in which the accepted problem is SOLVED. -/
theorem spec_c9_witness :
    fetchUserStatusMap exPermA = fetchUserStatusMap exPermB ∧
    fetchUserStatusMap exPermA "1A" = some Status.SOLVED := by
  have h := spec_c9 exPermA exPermB (by decide)
  refine ⟨h.1, ?_⟩
  exact ((h.2.1 "1A").1).mpr ⟨⟨⟨1, "A", ["dp"], some 800⟩, "OK"⟩, by decide, by decide, by decide⟩

/-- Claim C10: the legacy duplicate logic agrees with the primary
implementation: both reconciliation folds produce identical status maps
on every submission list, and both filter pipelines produce identical
rendered sequences on every catalog and filter state. -/
theorem spec_c10 :
    (∀ subs : List Submission, fetchUserStatusMap subs = Part000.fetchUserStatusMap subs) ∧
    (∀ (catalog : List MergedProblem) (st : FilterState),
       applyFilters catalog st = Part000.applyFilters catalog st) :=
  ⟨fun _ => rfl, fun _ _ => rfl⟩

end Ladder

namespace Ladder

/-- Positional solvedCount transfer: any record produced by the
positional merge carries the solvedCount of the statistics entry at
the same index. -/
lemma zipWith_solvedCount (as : List CFProblem) (bs : List ProblemStat) (i : Nat)
    (p : MergedProblem) (h : (List.zipWith mergeOne as bs)[i]? = some p) :
    ∃ s : ProblemStat, bs[i]? = some s ∧ p.solvedCount = s.solvedCount := by
  induction as generalizing bs i with
  | nil => simp at h
  | cons a as ih =>
    cases bs with
    | nil => simp at h
    | cons b bs =>
      cases i with
      | zero =>
        simp only [List.zipWith_cons_cons, List.getElem?_cons_zero, Option.some.injEq] at h
        subst h
        exact ⟨b, by simp, rfl⟩
      | succ n =>
        simp only [List.zipWith_cons_cons, List.getElem?_cons_succ] at h ⊢
        exact ih bs n h

/-- Claim C3: on index-aligned arrays the Problem Merger outputs
exactly the merged records that have a defined rating and whose
identity is among the trimmed curated entries; each output record
carries the solvedCount of the statistics entry at its position; and
the spec example with one rated allow-listed problem and one unrated
problem yields exactly one record. -/
theorem spec_c3 (problems : List CFProblem) (stats : List ProblemStat)
    (ladder : List String) (halign : problems.length = stats.length) :
    (∃ out : List MergedProblem, fetchProblemsCore problems stats ladder = some out ∧
       ∀ p : MergedProblem, p ∈ out ↔
         (p ∈ List.zipWith mergeOne problems stats ∧ p.rating.isSome = true ∧
          mergedPid p ∈ ladder.map jsTrim)) ∧
    (∀ (i : Nat) (p : MergedProblem),
       (List.zipWith mergeOne problems stats)[i]? = some p →
       ∃ s : ProblemStat, stats[i]? = some s ∧ p.solvedCount = s.solvedCount) ∧
    fetchProblemsCore [exA, exB] exStats ["1A"] =
      some [⟨1, "A", "Alpha", some 1200, ["dp"], 100⟩] := by
  refine ⟨?_, ?_, ?_⟩
  · refine ⟨((List.zipWith mergeOne problems stats).filter
        (fun p => p.rating.isSome)).filter
        (fun p => (ladder.map (fun s => jsTrim s)).contains (mergedPid p)), ?_, ?_⟩
    · unfold fetchProblemsCore combineData
      rw [if_pos (le_of_eq halign)]
      rfl
    · intro p
      simp only [List.mem_filter, Bool.and_eq_true]
      constructor
      · rintro ⟨⟨hmem, hsome⟩, hlad⟩
        exact ⟨hmem, hsome, by simpa using hlad⟩
      · rintro ⟨hmem, hsome, hlad⟩
        exact ⟨⟨hmem, hsome⟩, by simpa using hlad⟩
  · intro i p hp
    exact zipWith_solvedCount problems stats i p hp
  · rfl

/-- Witness for C3: the spec example, aligned with two statistics
entries, produces the single merged record with solvedCount 100. -/
theorem spec_c3_witness :
    fetchProblemsCore [exA, exB] exStats ["1A"] =
      some [⟨1, "A", "Alpha", some 1200, ["dp"], 100⟩] ∧
    ∃ s : ProblemStat, exStats[0]? = some s ∧
      (⟨1, "A", "Alpha", some 1200, ["dp"], 100⟩ : MergedProblem).solvedCount
        = s.solvedCount := by
  have h := spec_c3 [exA, exB] exStats ["1A"] (by decide)
  refine ⟨h.2.2, ?_⟩
  exact h.2.1 0 ⟨1, "A", "Alpha", some 1200, ["dp"], 100⟩ (by decide)

/-- Claim C4: with no rating selected the Filter Engine produces no
rows: it renders the empty list, or on an empty catalog returns
without rendering at all, regardless of tag selection and logic. -/
theorem spec_c4 (catalog : List MergedProblem) (tags : List String) (logic : TagLogic) :
    applyFilters catalog ⟨none, tags, logic⟩ =
      if catalog.length = 0 then none else some [] := by
  by_cases hc : catalog.length = 0 <;> simp [applyFilters, hc]

/-- Claim C5: on a record that passed the rating filter, with a
non-empty tag selection the engine applies the tag predicate: under OR
it keeps the record exactly when some selected tag is among its tags,
under AND exactly when every selected tag is. -/
theorem spec_c5 (catalog : List MergedProblem) (r : Nat) (tags : List String)
    (logic : TagLogic) (p : MergedProblem)
    (hcat : catalog ≠ []) (hr : r ≠ 0) (htags : tags ≠ []) :
    applyFilters catalog ⟨some r, tags, logic⟩ =
      some ((catalog.filter (fun q => q.rating == some r)).filter
        (tagKeep ⟨some r, tags, logic⟩)) ∧
    (tagKeep ⟨some r, tags, TagLogic.OR⟩ p = true ↔ ∃ t ∈ tags, t ∈ p.tags) ∧
    (tagKeep ⟨some r, tags, TagLogic.AND⟩ p = true ↔ ∀ t ∈ tags, t ∈ p.tags) := by
  refine ⟨?_, ?_, ?_⟩
  · simp [applyFilters, List.length_eq_zero, hcat, hr, List.length_pos, htags]
  · simp [tagKeep, List.any_eq_true]
  · simp [tagKeep, List.all_eq_true]

/-- Witness for C5: with dp and math selected, the record tagged only
dp is kept under OR and dropped under AND. -/
theorem spec_c5_witness :
    tagKeep ⟨some 1200, ["dp", "math"], TagLogic.OR⟩ exTagged = true ∧
    tagKeep ⟨some 1200, ["dp", "math"], TagLogic.AND⟩ exTagged = false := by
  have h := spec_c5 [exTagged] 1200 ["dp", "math"] TagLogic.OR exTagged
    (by decide) (by decide) (by decide)
  refine ⟨h.2.1.mpr ⟨"dp", by decide, by decide⟩, by decide⟩

/-- Claim C8: whatever the Filter Engine renders is a subsequence of
the input catalog: the filters keep relative order and never re-sort. -/
theorem spec_c8 (catalog : List MergedProblem) (st : FilterState) :
    List.Sublist ((applyFilters catalog st).getD []) catalog := by
  obtain ⟨sr, tags, logic⟩ := st
  cases sr with
  | none =>
    by_cases hc : catalog.length = 0 <;> simp [applyFilters, hc]
  | some r =>
    by_cases hc : catalog.length = 0 <;> by_cases hr : r = 0 <;>
      by_cases ht : tags.length > 0 <;>
      simp [applyFilters, hc, hr, ht]

/-- An entry already recorded for a key survives the rest of the
deduplication fold unchanged. -/
lemma foldl_dedup_found (subs : List Submission) (acc : List (String × SubmProblem))
    (u : String) (e : String × SubmProblem)
    (h : acc.find? (fun x => x.1 == u) = some e) :
    (subs.foldl dedupStep acc).find? (fun x => x.1 == u) = some e := by
  induction subs generalizing acc with
  | nil => simpa using h
  | cons s rest ih =>
    rw [List.foldl_cons]
    apply ih
    unfold dedupStep
    by_cases hv : s.verdict = "OK"
    · by_cases ha : (acc.any fun x => x.1 == subPid s) = true
      · simp [hv, ha, h]
      · simp [hv, ha, List.find?_append, h]
    · simp [hv, h]

/-- For a key not yet recorded, the deduplication fold records the
first accepted submission with that identity, if any. -/
lemma foldl_dedup_none (subs : List Submission) (acc : List (String × SubmProblem))
    (u : String) (h : acc.find? (fun x => x.1 == u) = none) :
    (subs.foldl dedupStep acc).find? (fun x => x.1 == u) =
      (subs.find? (fun s => s.verdict == "OK" && subPid s == u)).map
        (fun s => (u, s.problem)) := by
  induction subs generalizing acc with
  | nil => simpa using h
  | cons s rest ih =>
    rw [List.foldl_cons]
    by_cases hv : s.verdict = "OK"
    · by_cases hp : subPid s = u
      · have hpred : ((fun s => s.verdict == "OK" && subPid s == u) s) = true := by
          simp [hv, hp]
        have hany : (acc.any fun x => x.1 == subPid s) = false := by
          rw [hp, List.any_eq_false]
          intro x hx hxu
          exact (List.find?_eq_none.mp h x hx) hxu
        have hstep : dedupStep acc s = acc ++ [(subPid s, s.problem)] := by
          unfold dedupStep
          simp [hv, hany]
        rw [hstep, List.find?_cons]
        simp only [hpred]
        apply foldl_dedup_found
        rw [List.find?_append, h]
        simp [hp]
      · have hpred : ((fun s => s.verdict == "OK" && subPid s == u) s) = false := by
          simp [hp]
        have hacc2 : (dedupStep acc s).find? (fun x => x.1 == u) = none := by
          unfold dedupStep
          by_cases ha : (acc.any fun x => x.1 == subPid s) = true
          · simp [hv, ha, h]
          · simp [hv, ha, List.find?_append, h, hp]
        rw [List.find?_cons]
        simp only [hpred]
        exact ih _ hacc2
    · have hpred : ((fun s => s.verdict == "OK" && subPid s == u) s) = false := by
        simp [hv]
      have hacc2 : (dedupStep acc s).find? (fun x => x.1 == u) = none := by
        unfold dedupStep
        simp [hv, h]
      rw [List.find?_cons]
      simp only [hpred]
      exact ih _ hacc2

/-- First-seen-wins characterization of the deduplicated solved set:
looking a key up finds exactly the first accepted submission with that
identity, paired with that key. -/
lemma dedupSolved_find (subs : List Submission) (u : String) :
    (dedupSolved subs).find? (fun x => x.1 == u) =
      (subs.find? (fun s => s.verdict == "OK" && subPid s == u)).map
        (fun s => (u, s.problem)) :=
  foldl_dedup_none subs [] u (by simp)

/-- The deduplication fold keeps the recorded keys distinct. -/
lemma foldl_dedup_nodup (subs : List Submission) (acc : List (String × SubmProblem))
    (h : (acc.map Prod.fst).Nodup) :
    ((subs.foldl dedupStep acc).map Prod.fst).Nodup := by
  induction subs generalizing acc with
  | nil => simpa using h
  | cons s rest ih =>
    rw [List.foldl_cons]
    apply ih
    unfold dedupStep
    by_cases hv : s.verdict = "OK"
    · by_cases ha : (acc.any fun x => x.1 == subPid s) = true
      · simp [hv, ha, h]
      · simp only [hv, ha, if_true, Bool.false_eq_true, if_false, List.map_append,
          List.map_cons, List.map_nil]
        rw [List.nodup_append]
        refine ⟨h, by simp, ?_⟩
        intro a hamem hasing
        simp only [List.mem_cons, List.not_mem_nil, or_false] at hasing
        subst hasing
        apply ha
        obtain ⟨x, hx, hxfst⟩ := List.mem_map.mp hamem
        exact List.any_eq_true.mpr ⟨x, hx, by simp [hxfst]⟩
    · simp [hv, h]

/-- The deduplicated solved set has one record per identity. -/
lemma dedupSolved_nodup (subs : List Submission) :
    ((dedupSolved subs).map Prod.fst).Nodup :=
  foldl_dedup_nodup subs [] (by simp)

/-- Evaluating a tag fold at one tag adds that tag occurrence count. -/
lemma foldl_bumpTag_apply (tags : List String) (acc : String → Nat) (u : String) :
    (tags.foldl bumpTag acc) u = acc u + tags.count u := by
  induction tags generalizing acc with
  | nil => simp
  | cons t ts ih =>
    rw [List.foldl_cons, ih, List.count_cons]
    unfold bumpTag
    by_cases h : u = t
    · subst h
      simp
      omega
    · have hb : (t == u) = false := by
        simp only [beq_eq_false_iff_ne]
        exact Ne.symm h
      simp [h, hb]

/-- Evaluating the full tag-count fold at one tag sums the occurrence
counts over all problems. -/
lemma foldl_tagCounts_apply (probs : List SubmProblem) (acc : String → Nat) (u : String) :
    (probs.foldl (fun acc p => p.tags.foldl bumpTag acc) acc) u =
      acc u + (probs.map (fun p => p.tags.count u)).sum := by
  induction probs generalizing acc with
  | nil => simp
  | cons p ps ih =>
    rw [List.foldl_cons, ih, foldl_bumpTag_apply]
    simp
    omega

/-- The tag distribution at a tag is the sum over solved problems of
that tag occurrence count in the problem tag list. -/
lemma tagCounts_apply (probs : List SubmProblem) (u : String) :
    tagCounts probs u = (probs.map (fun p => p.tags.count u)).sum := by
  unfold tagCounts
  rw [foldl_tagCounts_apply]
  simp

/-- With duplicate-free tag lists (tags are a set in the data model),
the tag distribution counts each problem once per tag it contains. -/
lemma tagCounts_nodup_apply (probs : List SubmProblem)
    (h : ∀ p ∈ probs, p.tags.Nodup) (u : String) :
    tagCounts probs u = probs.countP (fun p => p.tags.contains u) := by
  rw [tagCounts_apply]
  induction probs with
  | nil => simp
  | cons p ps ih =>
    rw [List.map_cons, List.sum_cons, List.countP_cons,
      ih (fun q hq => h q (List.mem_cons_of_mem p hq))]
    by_cases hm : u ∈ p.tags
    · rw [List.count_eq_one_of_mem (h p (List.mem_cons_self p ps)) hm]
      simp [hm]
      omega
    · rw [List.count_eq_zero_of_not_mem hm]
      simp [hm]

/-- Rating 0 is never bumped: truthiness skips it. -/
lemma foldl_bumpRating_zero (probs : List SubmProblem) (acc : Nat → Nat) :
    (probs.foldl bumpRating acc) 0 = acc 0 := by
  induction probs generalizing acc with
  | nil => simp
  | cons p ps ih =>
    rw [List.foldl_cons, ih]
    unfold bumpRating
    cases hr : p.rating with
    | none => simp
    | some r =>
      by_cases h0 : r = 0
      · simp [h0]
      · have h0r : ¬((0 : Nat) = r) := fun hh => h0 (Eq.symm hh)
        simp [h0, h0r]

/-- Evaluating the rating fold at a nonzero rating counts the problems
with exactly that rating. -/
lemma foldl_bumpRating_pos (probs : List SubmProblem) (acc : Nat → Nat) (u : Nat)
    (hu : u ≠ 0) :
    (probs.foldl bumpRating acc) u =
      acc u + probs.countP (fun p => p.rating == some u) := by
  induction probs generalizing acc with
  | nil => simp
  | cons p ps ih =>
    rw [List.foldl_cons, ih, List.countP_cons]
    unfold bumpRating
    cases hr : p.rating with
    | none => simp [hr]
    | some r =>
      by_cases h0 : r = 0
      · subst h0
        have hb : (p.rating == some u) = false := by
          simp only [hr, beq_eq_false_iff_ne]
          exact fun hh => hu (by injection hh with hh2; exact hh2.symm)
        have h0u : ¬((0 : Nat) = u) := fun hh => hu (Eq.symm hh)
        simp [hb, h0u]
      · by_cases hru : u = r
        · subst hru
          have hb : (p.rating == some u) = true := by simp [hr]
          simp [hu, hb]
          omega
        · have hb : (p.rating == some u) = false := by
            simp only [hr, beq_eq_false_iff_ne]
            exact fun hh => hru (by injection hh with hh2; exact hh2.symm)
          have hru2 : ¬(r = u) := fun hh => hru (Eq.symm hh)
          simp [h0, hru, hru2, hb]

/-- The rating distribution maps 0 to 0. -/
lemma ratingCounts_zero (probs : List SubmProblem) : ratingCounts probs 0 = 0 := by
  unfold ratingCounts
  rw [foldl_bumpRating_zero]

/-- The rating distribution at a nonzero rating counts the problems
with exactly that rating. -/
lemma ratingCounts_pos (probs : List SubmProblem) (u : Nat) (hu : u ≠ 0) :
    ratingCounts probs u = probs.countP (fun p => p.rating == some u) := by
  unfold ratingCounts
  rw [foldl_bumpRating_pos probs _ u hu]
  simp

/-- Claim C6, amended: the Analytics Aggregator dedups the accepted
submissions to one record per identity with the first seen winning and
distinct keys; the tag distribution sums tag occurrences over the
deduplicated solved problems (one per tag when tag lists are
duplicate-free); the rating distribution counts solved problems per
distinct nonzero rating and skips problems whose rating is absent or
zero, because the code tests the rating for JS truthiness rather than
for presence. -/
theorem spec_c6 (subs : List Submission) :
    (∀ u : String,
       (dedupSolved subs).find? (fun x => x.1 == u) =
         (subs.find? (fun s => s.verdict == "OK" && subPid s == u)).map
           (fun s => (u, s.problem))) ∧
    ((dedupSolved subs).map Prod.fst).Nodup ∧
    (∀ u : String,
       tagCounts ((dedupSolved subs).map Prod.snd) u =
         (((dedupSolved subs).map Prod.snd).map (fun p => p.tags.count u)).sum) ∧
    ((∀ p ∈ (dedupSolved subs).map Prod.snd, p.tags.Nodup) →
       ∀ u : String,
         tagCounts ((dedupSolved subs).map Prod.snd) u =
           ((dedupSolved subs).map Prod.snd).countP (fun p => p.tags.contains u)) ∧
    (∀ r : Nat, r ≠ 0 →
       ratingCounts ((dedupSolved subs).map Prod.snd) r =
         ((dedupSolved subs).map Prod.snd).countP (fun p => p.rating == some r)) ∧
    ratingCounts ((dedupSolved subs).map Prod.snd) 0 = 0 ∧
    (dedupSolved subs ≠ [] →
       generateAnalytics subs =
         AnalyticsResult.charts (tagCounts ((dedupSolved subs).map Prod.snd))
           (ratingCounts ((dedupSolved subs).map Prod.snd))) := by
  refine ⟨dedupSolved_find subs, dedupSolved_nodup subs,
    tagCounts_apply ((dedupSolved subs).map Prod.snd),
    tagCounts_nodup_apply ((dedupSolved subs).map Prod.snd),
    fun r hr => ratingCounts_pos ((dedupSolved subs).map Prod.snd) r hr,
    ratingCounts_zero ((dedupSolved subs).map Prod.snd), ?_⟩
  intro hne
  unfold generateAnalytics
  rw [if_neg (by simpa [List.length_eq_zero] using hne)]

/-- Witness for C6: on the concrete list with a duplicate accepted
identity, the distributions match the counting formulas, the charts
are produced, and the duplicate identity kept its first-seen problem
record. -/
theorem spec_c6_witness :
    tagCounts ((dedupSolved exAna).map Prod.snd) "dp" =
      ((dedupSolved exAna).map Prod.snd).countP (fun p => p.tags.contains "dp") ∧
    ratingCounts ((dedupSolved exAna).map Prod.snd) 800 =
      ((dedupSolved exAna).map Prod.snd).countP (fun p => p.rating == some 800) ∧
    generateAnalytics exAna =
      AnalyticsResult.charts (tagCounts ((dedupSolved exAna).map Prod.snd))
        (ratingCounts ((dedupSolved exAna).map Prod.snd)) ∧
    (dedupSolved exAna).find? (fun x => x.1 == "1A") =
      some ("1A", ⟨1, "A", ["dp", "math"], some 800⟩) := by
  have h := spec_c6 exAna
  exact ⟨h.2.2.2.1 (by decide) "dp", h.2.2.2.2.1 800 (by decide),
    h.2.2.2.2.2.2 (by decide), (h.1 "1A").trans (by decide)⟩

/-- Counterexample to C6 as stated: the accepted problem with rating 0
does have a rating and is in the deduplicated solved set, yet the
rating distribution maps 0 to 0 instead of counting it, because the
code skips any falsy rating. -/
theorem spec_c6_cex :
    ((dedupSolved exR0).map Prod.snd).countP (fun p => p.rating == some 0) = 1 ∧
    ratingCounts ((dedupSolved exR0).map Prod.snd) 0 = 0 ∧
    generateAnalytics exR0 =
      AnalyticsResult.charts (tagCounts ((dedupSolved exR0).map Prod.snd))
        (ratingCounts ((dedupSolved exR0).map Prod.snd)) :=
  ⟨by decide, by decide, rfl⟩

/-- Claim C7: whenever the deduplicated solved set is empty, the
Analytics Aggregator produces the no-data signal and no chart
distributions at all. -/
theorem spec_c7 (subs : List Submission) (h : dedupSolved subs = []) :
    generateAnalytics subs = AnalyticsResult.noData ∧
    ∀ (tc : String → Nat) (rc : Nat → Nat),
      generateAnalytics subs ≠ AnalyticsResult.charts tc rc := by
  have hg : generateAnalytics subs = AnalyticsResult.noData := by
    unfold generateAnalytics
    rw [h]
    rfl
  refine ⟨hg, fun tc rc hc => ?_⟩
  rw [hg] at hc
  exact AnalyticsResult.noConfusion hc

/-- Witness for C7: the empty list and a list with only a rejected
submission both yield the no-data signal. -/
theorem spec_c7_witness :
    generateAnalytics ([] : List Submission) = AnalyticsResult.noData ∧
    generateAnalytics [⟨⟨1, "A", ["dp"], some 800⟩, "WRONG_ANSWER"⟩] =
      AnalyticsResult.noData :=
  ⟨(spec_c7 [] (by decide)).1,
   (spec_c7 [⟨⟨1, "A", ["dp"], some 800⟩, "WRONG_ANSWER"⟩] (by decide)).1⟩

end Ladder
